import Mathlib

/-!
Verification development for the `mp3_downloader` resolution-and-download
pipeline (file `src/mp3_downloader.py` of the repository).  The Python
functions are shallowly embedded as executable Lean definitions; network,
HTML-parsing and filesystem effects are modelled by explicit oracles and
explicit state (a list of existing paths).  Machine strings are Lean
`String`s (lists of characters), matching Python `str` for the ASCII
inputs the claims exercise.
-/

set_option maxRecDepth 4000

/-! ## Generic character / string helpers used by the embedding -/

/-- Substring test on character lists: does `pat` occur contiguously in `hay`?
Models Python's `pat in hay` for strings. -/
def containsSub (hay pat : List Char) : Bool :=
  match hay with
  | [] => pat.isEmpty
  | _ :: t => pat.isPrefixOf hay || containsSub t pat

/-- Python `pat in s` (substring containment). -/
def containsSubstr (s pat : String) : Bool :=
  containsSub s.data pat.data

/-- Python `s.lower()` (ASCII case folding; the inputs the claims exercise
are ASCII). -/
def toLowerStr (s : String) : String :=
  String.mk (s.data.map Char.toLower)

/-- Python `s.endswith(suffix)`. -/
def endsWithStr (s suffix : String) : Bool :=
  suffix.data.isSuffixOf s.data

/-- Python `s.strip(c)` for a single strip character: remove every leading
and trailing occurrence of `c`. -/
def stripChar (c : Char) (s : String) : String :=
  String.mk (((s.data.dropWhile (fun d => d = c)).reverse.dropWhile
    (fun d => d = c)).reverse)

/-- Value of an ASCII hex digit, if the character is one. -/
def hexVal (c : Char) : Option Nat :=
  if '0' ≤ c ∧ c ≤ '9' then some (c.toNat - '0'.toNat)
  else if 'a' ≤ c ∧ c ≤ 'f' then some (c.toNat - 'a'.toNat + 10)
  else if 'A' ≤ c ∧ c ≤ 'F' then some (c.toNat - 'A'.toNat + 10)
  else none

/-- Percent-decoding of a character list.  Models `urllib.parse.unquote`
for ASCII percent-escapes (multi-byte UTF-8 escape sequences, which no
claim exercises, decode byte-by-byte here). -/
def unquoteList : List Char → List Char
  | [] => []
  | '%' :: a :: b :: rest =>
    match hexVal a, hexVal b with
    | some x, some y => Char.ofNat (16 * x + y) :: unquoteList rest
    | _, _ => '%' :: unquoteList (a :: b :: rest)
  | c :: rest => c :: unquoteList rest

/-- Python `urllib.parse.unquote` (ASCII fragment, see `unquoteList`). -/
def unquote (s : String) : String :=
  String.mk (unquoteList s.data)

/-- Split `l` at the first occurrence of `pat`, returning the part before
and the part after (with `pat` removed). -/
def splitFirst (l pat : List Char) : Option (List Char × List Char) :=
  match l with
  | [] => if pat.isEmpty then some ([], []) else none
  | c :: t =>
    if pat.isPrefixOf l then some ([], l.drop pat.length)
    else match splitFirst t pat with
      | some (pre, post) => some (c :: pre, post)
      | none => none

/-- Path component of a URL: `urlparse(u).path` restricted to the URL
shapes the program meets (absolute `scheme://netloc/path` URLs, plus
scheme-less strings which urlparse returns whole as the path); the query
and fragment are cut off. -/
def urlPath (u : String) : String :=
  let noFrag := u.data.takeWhile (fun c => c ≠ '#')
  let noQuery := noFrag.takeWhile (fun c => c ≠ '?')
  match splitFirst noQuery "://".data with
  | some (_, rest) => String.mk (rest.dropWhile (fun c => c ≠ '/'))
  | none => String.mk noQuery

/-- Python `os.path.basename`: the part after the last `/`. -/
def basename (p : String) : String :=
  String.mk ((p.data.reverse.takeWhile (fun c => c ≠ '/')).reverse)

/-- Python `os.path.splitext`: split off the extension at the last dot of
the last path component; leading dots of the component never start an
extension. -/
def splitext (p : String) : String × String :=
  let l := p.data
  let name := (l.reverse.takeWhile (fun c => c ≠ '/')).reverse
  let dir := l.take (l.length - name.length)
  if name.contains '.' then
    let extLen := (name.reverse.takeWhile (fun c => c ≠ '.')).length
    let dotPos := name.length - extLen - 1
    if (name.take dotPos).any (fun c => c ≠ '.') then
      (String.mk (dir ++ name.take dotPos), String.mk (name.drop dotPos))
    else (p, "")
  else (p, "")

/-- Python `os.path.join(dir, fname)` for one component. -/
def joinPath (dir fname : String) : String :=
  if "/".data.isPrefixOf fname.data then fname
  else if dir = "" then fname
  else if dir.data.getLast? = some '/' then dir ++ fname
  else dir ++ "/" ++ fname

/-- Little-endian decimal digits of `n` rendered as characters; structural
fuel makes the definition kernel-reducible. -/
def natStrAux : Nat → Nat → List Char
  | 0, _ => []
  | fuel + 1, n => if n = 0 then [] else Nat.digitChar (n % 10) :: natStrAux fuel (n / 10)

/-- Decimal rendering of a natural number, as Python `str(n)` produces. -/
def natStr (n : Nat) : String :=
  if n = 0 then "0" else String.mk (natStrAux (n + 1) n).reverse

/-! ## Direct translations of the pure helpers of `mp3_downloader.py` -/

/-- `get_filename_from_cd` regex step: leftmost position where
`filename=` is followed by at least one non-newline character; the group
is the rest of that line (Python `re.findall('filename=(.+)', cd)`, first
match). -/
def findFilenameMatch : List Char → Option (List Char)
  | [] => none
  | c :: rest =>
    if "filename=".data.isPrefixOf (c :: rest) then
      let grp := ((c :: rest).drop 9).takeWhile (fun d => d ≠ '\n')
      if grp.isEmpty then findFilenameMatch rest else some grp
    else findFilenameMatch rest

/-- `get_filename_from_cd(cd)`: extract the filename from a
Content-Disposition header; `None`/empty header yields `none`, otherwise
the first `filename=` line remainder with double quotes then single
quotes stripped from both ends. -/
def get_filename_from_cd (cd : Option String) : Option String :=
  match cd with
  | none => none
  | some s =>
    if s = "" then none
    else match findFilenameMatch s.data with
      | none => none
      | some grp => some (stripChar '\x27' (stripChar '"' (String.mk grp)))

/-- `clean_filename(filename)`: remove every character of the class
`[\\/*?:":<>|]`. -/
def clean_filename (filename : String) : String :=
  String.mk (filename.data.filter (fun c =>
    !(c = '\\' || c = '/' || c = '*' || c = '?' || c = ':' || c = '"' ||
      c = '<' || c = '>' || c = '|')))

/-- The recognized audio extensions of `is_audio_url`. -/
def audioExts : List String :=
  [".mp3", ".wav", ".m4a", ".ogg", ".flac", ".aac", ".wma"]

/-- `is_audio_url(url)`: does the lowercased URL end in a recognized audio
extension? -/
def is_audio_url (url : String) : Bool :=
  audioExts.any (fun e => endsWithStr (toLowerStr url) e)

/-! ## URL resolution (`urllib.parse.urljoin`, http/https fragment) -/

/-- Split a character list at every `/` (Python `s.split('/')`); the
result is never empty. -/
def splitSlash : List Char → List (List Char)
  | [] => [[]]
  | c :: rest =>
    let r := splitSlash rest
    if c = '/' then [] :: r
    else match r with
      | [] => [[c]]
      | h :: t => (c :: h) :: t

/-- `s.split('/')` as strings. -/
def splitOnSlash (s : String) : List String :=
  (splitSlash s.data).map String.mk

/-- Dot-segment removal over path segments (`.` dropped, `..` pops),
accumulator style. -/
def normSegsAux : List String → List String → List String
  | acc, [] => acc.reverse
  | acc, s :: rest =>
    if s = "." then normSegsAux acc rest
    else if s = ".." then normSegsAux acc.tail rest
    else normSegsAux (s :: acc) rest

/-- `urljoin(base, rel)` as the program uses it on non-raising inputs:
`base` is an absolute `http(s)://netloc/path` URL (the final URL of a
fetched page).  Absolute references are returned whole, network-path and
absolute-path references are resolved against the base authority, and
relative references replace the last path segment, with simple
dot-segment removal.  Python's `urljoin` additionally raises `ValueError`
on references whose authority holds an unbalanced bracket; that uncaught
error path is modelled by `urljoinRaises` below and surfaced where the
program calls the resolve loop outside any `try` (see `process_url_body`). -/
def urljoin (base rel : String) : String :=
  if rel = "" then base
  else if "http://".data.isPrefixOf rel.data || "https://".data.isPrefixOf rel.data then rel
  else match splitFirst base.data "://".data with
    | none => rel
    | some (scheme, rest) =>
      let netloc := rest.takeWhile (fun c => c ≠ '/')
      let path := rest.drop netloc.length
      let root := String.mk scheme ++ "://" ++ String.mk netloc
      if "//".data.isPrefixOf rel.data then String.mk scheme ++ ":" ++ rel
      else if "/".data.isPrefixOf rel.data then
        root ++ "/" ++ String.intercalate "/" (normSegsAux [] ((splitOnSlash rel).drop 1))
      else root ++ "/" ++ String.intercalate "/"
        (normSegsAux [] (((splitOnSlash (String.mk path)).drop 1).dropLast ++ splitOnSlash rel))

/-- The authority (netloc) component `urllib.parse.urlsplit` extracts
from a URL reference: after an optional `scheme:` (a leading run of
letters, digits, `+`, `-`, `.` starting with a letter, up to the first
`:`), a leading `//` introduces the authority, which runs to the next
`/`, `?` or `#`; a reference without `//` has no authority. -/
def netlocOf (u : String) : String :=
  let l := u.data
  let afterScheme :=
    match splitFirst l [':'] with
    | some (pre, post) =>
      if !pre.isEmpty && (pre.headD ' ').isAlpha &&
         pre.all (fun c => c.isAlpha || c.isDigit || c = '+' || c = '-' || c = '.')
      then post else l
    | none => l
  if "//".data.isPrefixOf afterScheme then
    String.mk ((afterScheme.drop 2).takeWhile
      (fun c => c ≠ '/' && c ≠ '?' && c ≠ '#'))
  else ""

/-- The `ValueError: Invalid IPv6 URL` check of `urllib.parse.urlsplit`
as hit by `urljoin(base, rel)`, which splits both arguments (after the
early returns on an empty argument): an authority containing `[` without
`]`, or `]` without `[`, raises.  CPython 3.11+ additionally validates
the inside of a balanced bracketed host; that stricter, version-dependent
check is not modelled. -/
def urljoinRaises (base rel : String) : Bool :=
  if base = "" || rel = "" then false
  else
    ((netlocOf base).data.contains '[' && !((netlocOf base).data.contains ']')) ||
    ((netlocOf base).data.contains ']' && !((netlocOf base).data.contains '[')) ||
    ((netlocOf rel).data.contains '[' && !((netlocOf rel).data.contains ']')) ||
    ((netlocOf rel).data.contains ']' && !((netlocOf rel).data.contains '['))

/-! ## HTML document model and the candidate extractor -/

/-- Parsed HTML node, the view of BeautifulSoup's tree that
`find_audio_on_page` consumes: element nodes carry a tag name and an
attribute list (first occurrence of a duplicated attribute wins, as in
`html.parser`). -/
inductive Node where
  | elem (tag : String) (attrs : List (String × String)) (children : List Node)
  | text (s : String)

mutual

/-- Element nodes of a subtree in document (preorder) order, the node
itself included when it is an element. -/
def elemsInNode : Node → List Node
  | Node.text _ => []
  | Node.elem t a cs => Node.elem t a cs :: elemsIn cs

/-- All element nodes of a forest in document (preorder) order —
BeautifulSoup's `find_all` traversal order. -/
def elemsIn : List Node → List Node
  | [] => []
  | n :: rest => elemsInNode n ++ elemsIn rest

end

/-- Element nodes of a forest with a given tag, in document order. -/
def elemsOfTag (t : String) (ns : List Node) : List Node :=
  (elemsIn ns).filter (fun n => match n with
    | Node.elem tg _ _ => tg = t
    | Node.text _ => false)

/-- `tag.get(k)`: first value of attribute `k`, if present. -/
def getAttr (attrs : List (String × String)) (k : String) : Option String :=
  (attrs.find? (fun p => p.1 = k)).map (fun p => p.2)

/-- Attribute value when present and truthy (Python skips `None` and `""`). -/
def truthyAttr (attrs : List (String × String)) (k : String) : List String :=
  match getAttr attrs k with
  | some s => if s = "" then [] else [s]
  | none => []

/-- Concatenation of the images of `f`, in order. -/
def listFlat (f : α → List β) : List α → List β
  | [] => []
  | x :: xs => f x ++ listFlat f xs

/-- Strategy 1 of `find_audio_on_page`: for each `<audio>` element, its
own truthy `src`, then the truthy `src` of each nested `<source>`. -/
def strat1 (ns : List Node) : List String :=
  listFlat (fun audio => match audio with
    | Node.elem _ attrs cs =>
      truthyAttr attrs "src" ++
        listFlat (fun src => match src with
          | Node.elem _ a _ => truthyAttr a "src"
          | Node.text _ => []) (elemsOfTag "source" cs)
    | Node.text _ => []) (elemsOfTag "audio" ns)

/-- Strategy 2: `<a>` elements with an `href` whose value passes
`is_audio_url`. -/
def strat2 (ns : List Node) : List String :=
  listFlat (fun a => match a with
    | Node.elem _ attrs _ =>
      (match getAttr attrs "href" with
       | some h => if is_audio_url h then [h] else []
       | none => [])
    | Node.text _ => []) (elemsOfTag "a" ns)

/-- Strategy 3: every `<source>` element of the document with a `src`
passing `is_audio_url` (this re-visits sources nested in `<audio>`, as
`soup.find_all('source', src=True)` does). -/
def strat3 (ns : List Node) : List String :=
  listFlat (fun s => match s with
    | Node.elem _ attrs _ =>
      (match getAttr attrs "src" with
       | some v => if is_audio_url v then [v] else []
       | none => [])
    | Node.text _ => []) (elemsOfTag "source" ns)

/-- Strategy 4: `<meta>` elements whose `property` is an Open Graph audio
key or whose `name` is a Twitter audio key; their truthy `content` is the
candidate. -/
def strat4 (ns : List Node) : List String :=
  listFlat (fun m => match m with
    | Node.elem _ attrs _ =>
      if (match getAttr attrs "property" with
          | some p => p = "og:audio" || p = "og:audio:url" || p = "og:audio:secure_url"
          | none => false) ||
         (match getAttr attrs "name" with
          | some n => n = "twitter:player:stream" || n = "twitter:audio:partner"
          | none => false) then
        truthyAttr attrs "content"
      else []
    | Node.text _ => []) (elemsOfTag "meta" ns)

/-! Strategy 5 is the raw-text regular-expression scan
`re.findall(r'https?://[^\s"\\]+\.mp3', html_content)`. -/

/-- Characters admitted by the class `[^\s"\\]` (ASCII whitespace view of
`\s`). -/
def isUrlChar (c : Char) : Bool :=
  !(c = ' ' || c = '\t' || c = '\n' || c = '\r' || c = '\x0b' || c = '\x0c' ||
    c = '"' || c = '\\')

/-- Length matched by `https?://` at the head of `l`, if it matches. -/
def httpPrefixLen (l : List Char) : Option Nat :=
  if "https://".data.isPrefixOf l then some 8
  else if "http://".data.isPrefixOf l then some 7
  else none

/-- Largest `k ≤ start` with `k ≥ 1` such that `.mp3` occurs in `run` at
offset `k` — the backtracking step of the greedy `[^\s"\\]+\.mp3`. -/
def findK (run : List Char) : Nat → Option Nat
  | 0 => none
  | k + 1 =>
    if ".mp3".data.isPrefixOf (run.drop (k + 1)) then some (k + 1)
    else findK run k

/-- One attempted regex match at the head of `l`: `https?://`, then a
maximal run of admitted characters backtracked to its last `.mp3`.
Returns the matched characters and the matched length. -/
def tryMatchMp3 (l : List Char) : Option (List Char × Nat) :=
  match httpPrefixLen l with
  | none => none
  | some n =>
    let run := (l.drop n).takeWhile isUrlChar
    match findK run (run.length - 4) with
    | none => none
    | some k => some (l.take (n + k + 4), n + k + 4)

/-- `re.findall` driver: scan left to right, emitting non-overlapping
matches and resuming after each one.  The fuel is the input length, which
bounds the number of one-character advances. -/
def findMp3Go : Nat → List Char → List String
  | 0, _ => []
  | _, [] => []
  | fuel + 1, c :: rest =>
    match tryMatchMp3 (c :: rest) with
    | some (m, consumed) => String.mk m :: findMp3Go fuel ((c :: rest).drop consumed)
    | none => findMp3Go fuel rest

/-- Strategy 5: all `https?://…\.mp3` literals of the raw text. -/
def findMp3Urls (s : String) : List String :=
  findMp3Go s.data.length s.data

/-! ## Deduplication and the mp3-priority ordering -/

/-- The dedup loop of `find_audio_on_page`: keep the first occurrence of
each string, tracking seen values. -/
def dedupFirstAux (seen : List String) : List String → List String
  | [] => []
  | x :: xs => if x ∈ seen then dedupFirstAux seen xs
               else x :: dedupFirstAux (x :: seen) xs

/-- First-occurrence deduplication, order preserved. -/
def dedupFirst (l : List String) : List String :=
  dedupFirstAux [] l

/-- Sort key of `unique.sort(key=lambda x: 0 if x.lower().endswith('.mp3') else 1)`. -/
def mp3Key (x : String) : Nat :=
  if endsWithStr (toLowerStr x) ".mp3" then 0 else 1

/-- Stable insertion by key: `x` goes before the first element whose key
is not smaller.  A stable sort agrees with Python's (stable) `list.sort`. -/
def insertByKey (key : α → Nat) (x : α) : List α → List α
  | [] => [x]
  | y :: ys => if key x ≤ key y then x :: y :: ys else y :: insertByKey key x ys

/-- Stable sort by key (insertion sort), the semantics of `list.sort(key=…)`. -/
def sortByKey (key : α → Nat) (l : List α) : List α :=
  l.foldr (insertByKey key) []

/-! ## `find_audio_on_page` -/

/-- Raw candidate list of `find_audio_on_page`: the five strategies in
program order, before resolution. -/
def rawCandidates (ns : List Node) (html_content : String) : List String :=
  strat1 ns ++ strat2 ns ++ strat3 ns ++ strat4 ns ++ findMp3Urls html_content

/-- Candidates after skipping empty values and resolving each against the
base URL (`if not c: continue; urljoin(base_url, c)`). -/
def resolvedCandidates (ns : List Node) (html_content base_url : String) : List String :=
  listFlat (fun c => if c = "" then [] else [urljoin base_url c])
    (rawCandidates ns html_content)

/-- The working list after global deduplication (first occurrence wins),
still in discovery order. -/
def extractUnique (ns : List Node) (html_content base_url : String) : List String :=
  dedupFirst (resolvedCandidates ns html_content base_url)

/-- `find_audio_on_page(html_content, base_url)`.  The BeautifulSoup parse
of `html_content` is supplied as the node forest `ns`; the raw text is
still scanned by strategy 5.  The final `unique.sort(key=…)` is a stable
sort by the two-valued key `mp3Key`. -/
def find_audio_on_page (ns : List Node) (html_content base_url : String) : List String :=
  sortByKey mp3Key (extractUnique ns html_content base_url)

/-- Does the candidate-resolution loop of `find_audio_on_page` raise?
The loop calls `urljoin(base_url, c)` for every non-empty raw candidate
(lines 63–68 of the source), and `find_audio_on_page` itself is invoked
outside any `try`, so one candidate (or a base URL) tripping urlsplit's
bracket check aborts the whole resolution with an uncaught `ValueError`.
`find_audio_on_page` above gives the result of the non-raising runs. -/
def extractRaises (ns : List Node) (html_content base_url : String) : Bool :=
  (rawCandidates ns html_content).any (fun c => c ≠ "" && urljoinRaises base_url c)

/-! ## JSON model and `get_wayback_url` -/

/-- JSON values as Python's `json` module produces them (numbers limited
to integers, which is all the claims need). -/
inductive Json where
  | null
  | bool (b : Bool)
  | num (n : Int)
  | str (s : String)
  | arr (elems : List Json)
  | obj (fields : List (String × Json))

/-- Python truthiness of a decoded JSON value. -/
def truthyJson : Json → Bool
  | Json.null => false
  | Json.bool b => b
  | Json.num n => n ≠ 0
  | Json.str s => s ≠ ""
  | Json.arr l => !l.isEmpty
  | Json.obj f => !f.isEmpty

/-- First field with the given key, if the value is an object. -/
def jsonField : Json → String → Option Json
  | Json.obj fields, k => (fields.find? (fun p => p.1 = k)).map (fun p => p.2)
  | _, _ => none

/-- Python `d.get(k)`: `null` when the key is missing, an exception
(`none` here) when the value is not a dict. -/
def pyGet (j : Json) (k : String) : Option Json :=
  match j with
  | Json.obj _ => some ((jsonField j k).getD Json.null)
  | _ => none

/-- Python `d[k]`: an exception (`none` here) when the value is not a
dict or the key is missing. -/
def pyIndex (j : Json) (k : String) : Option Json :=
  match j with
  | Json.obj _ => jsonField j k
  | _ => none

/-- Outcome of the wayback availability request: the request may raise
(network error), the body may fail to decode as JSON, or a JSON document
is obtained. -/
inductive WaybackResp where
  | netError
  | notJson
  | ok (data : Json)

/-- `get_wayback_url(url)` on a given response of the availability
endpoint.  Every exception inside the `try` (request failure, non-JSON
body, attribute/key errors while drilling into the document) is caught
and turns into the `None` (here `Json.null`) result; the `url` value of
the closest snapshot is returned only when `archived_snapshots` and
`closest` are truthy and the key is reachable.  The function is total:
it never raises. -/
def get_wayback_url (resp : WaybackResp) : Json :=
  match resp with
  | WaybackResp.netError => Json.null
  | WaybackResp.notJson => Json.null
  | WaybackResp.ok data =>
    match pyGet data "archived_snapshots" with
    | none => Json.null
    | some a =>
      if truthyJson a then
        match pyGet a "closest" with
        | none => Json.null
        | some c =>
          if truthyJson c then
            match pyIndex c "url" with
            | none => Json.null
            | some v => v
          else Json.null
      else Json.null

/-- Direct spec-side accessor: the value of
`archived_snapshots.closest.url`, when every step of the path exists. -/
def urlFieldPath (data : Json) : Option Json :=
  match jsonField data "archived_snapshots" with
  | none => none
  | some a =>
    match jsonField a "closest" with
    | none => none
    | some c => jsonField c "url"

/-! ## The fetch / filesystem environment and `download_file` -/

/-- An HTTP response as `requests` exposes it to `download_file`. -/
structure Response where
  status : Nat
  contentType : String
  body : String
  finalUrl : String
  contentDisposition : Option String

/-- Result of `requests.get`: a response, or a raised network exception
(timeout, connection error, invalid URL). -/
inductive FetchResult where
  | ok (r : Response)
  | err

/-- The effect oracles of one resolution run: network responses keyed by
URL and referer, the wayback endpoint response per URL, BeautifulSoup's
parse of an HTML text, and which paths the filesystem refuses to write
or create.  The 15s/10s timeouts and the fixed request headers have no
further observable effect and live inside the oracles. -/
structure Env where
  fetch : String → Option String → FetchResult
  wayback : String → WaybackResp
  parse : String → List Node
  writeFails : String → Bool
  mkdirFails : String → Bool

/-- Outcome of one `download_file` call, the tagged view of its
`(success, content, final_url)` triple: `(True, path, None)` is `saved`,
`(False, text, url)` is `htmlPage`, `(False, None, None)` is `failed`. -/
inductive DlOutcome where
  | saved (path : String)
  | htmlPage (content finalUrl : String)
  | failed
deriving DecidableEq

/-- Filename guessing of `download_file` (lines 117–127): the
Content-Disposition name if non-empty, otherwise the percent-decoded last
path segment of the final URL; if the outcome is empty or dotless, the
synthesized `downloaded_audio` name with an extension guessed from the
(lowercased) content type. -/
def derive_filename (cd : Option String) (final_url content_type : String) : String :=
  let f0 := match get_filename_from_cd cd with
    | some s => s
    | none => ""
  let f1 := if f0 = "" then unquote (basename (urlPath final_url)) else f0
  if f1 = "" || !(f1.data.contains '.') then
    let ext := if containsSubstr content_type "wav" then ".wav"
      else if containsSubstr content_type "ogg" then ".ogg"
      else ".mp3"
    "downloaded_audio" ++ ext
  else f1

/-- The collision loop `while os.path.exists(output_path)`: bump a
counter suffix until the path is free.  The structural fuel bounds the
loop; `download_file` passes `fs.length + 2`, which is always enough
(see `resolveCollision_spec`). -/
def resolveCollision (fs : List String) (base ext : String) : Nat → String → Nat → String
  | 0, path, _ => path
  | fuel + 1, path, counter =>
    if path ∈ fs then
      resolveCollision fs base ext fuel (base ++ "_" ++ natStr counter ++ ext) (counter + 1)
    else path

/-- `download_file(url, output_dir, referer)` over the oracle `env` and
the set `fs` of existing paths.  The whole body sits in a catch-all
`try/except` returning the `failed` triple, so the function is total:
network errors, HTTP 4xx/5xx (`raise_for_status`) and filesystem write
errors all collapse into `failed`.  The HTML-page test precedes
`raise_for_status`.  Returns the outcome and the updated path set. -/
def download_file (env : Env) (fs : List String) (url output_dir : String)
    (referer : Option String) : DlOutcome × List String :=
  match env.fetch url referer with
  | FetchResult.err => (DlOutcome.failed, fs)
  | FetchResult.ok r =>
    let content_type := toLowerStr r.contentType
    if containsSubstr content_type "text/html" && !(is_audio_url url) then
      (DlOutcome.htmlPage r.body r.finalUrl, fs)
    else if 400 ≤ r.status && r.status ≤ 599 then
      (DlOutcome.failed, fs)
    else
      let filename := clean_filename (derive_filename r.contentDisposition r.finalUrl content_type)
      let output_path := joinPath output_dir filename
      let se := splitext output_path
      let final_path := resolveCollision fs se.1 se.2 (fs.length + 2) output_path 1
      if env.writeFails final_path then (DlOutcome.failed, fs)
      else (DlOutcome.saved final_path, final_path :: fs)

/-! ## `process_url`: the resolution orchestrator -/

/-- Observable side-effect trace of one resolution run: directory
creation, one entry per `requests.get` issued by `download_file`, and one
entry per wayback availability lookup. -/
inductive Event where
  | mkdir (dir : String)
  | fetch (url : String)
  | wayback (url : String)
deriving DecidableEq

/-- Result of `process_url`: `os.makedirs` raised (`fatal`), the
candidate-resolution loop raised `ValueError` inside
`find_audio_on_page` (`scanError`) — both propagate uncaught, crashing
the resolution — or the run finished with an optional saved path. -/
inductive PResult where
  | fatal
  | scanError
  | done (r : Option String)
deriving DecidableEq

/-- The candidate loop of `process_url`: try each extracted link in order
with the page's final URL as referer, stopping at the first save.  Returns
the result, the updated path set, and the fetch events in order. -/
def tryCandidates (env : Env) (fs : List String) (output_dir referer : String) :
    List String → Option String × List String × List Event
  | [] => (none, fs, [])
  | link :: rest =>
    let d := download_file env fs link output_dir (some referer)
    match d.1 with
    | DlOutcome.saved p => (some p, d.2, [Event.fetch link])
    | _ =>
      let t := tryCandidates env d.2 output_dir referer rest
      (t.1, t.2.1, Event.fetch link :: t.2.2)

/-- Body of `process_url` after the `os.makedirs` step, parameterized by
the fallback continuation (the `try_wayback` tail of the function); the
single bounded recursion of the source is unrolled through it.  `ev0`
carries the mkdir event when the directory was created. -/
def process_url_body (env : Env) (fs1 : List String) (url output_dir : String)
    (fallback : List String → PResult × List String × List Event)
    (ev0 : List Event) : PResult × List String × List Event :=
  let d := download_file env fs1 url output_dir none
  let evs1 := ev0 ++ [Event.fetch url]
  match d.1 with
  | DlOutcome.saved p => (PResult.done (some p), d.2, evs1)
  | DlOutcome.htmlPage content finalUrl =>
    if content = "" then
      -- `if html_content:` is false on an empty body; fall through to wayback
      let w := fallback d.2
      (w.1, w.2.1, evs1 ++ w.2.2)
    else if extractRaises (env.parse content) content finalUrl then
      -- `urljoin` raises `ValueError` inside the resolve loop of
      -- `find_audio_on_page`, called outside any `try`: the exception
      -- propagates out of `process_url` before any candidate is tried
      (PResult.scanError, d.2, evs1)
    else
      let links := find_audio_on_page (env.parse content) content finalUrl
      let t := tryCandidates env d.2 output_dir finalUrl links
      match t.1 with
      | some p => (PResult.done (some p), t.2.1, evs1 ++ t.2.2)
      | none =>
        let w := fallback t.2.1
        (w.1, w.2.1, evs1 ++ t.2.2 ++ w.2.2)
  | DlOutcome.failed =>
    let w := fallback d.2
    (w.1, w.2.1, evs1 ++ w.2.2)

/-- The `os.makedirs` guard at the top of `process_url`: this call is the
only statement outside every `try`, so its failure is fatal. -/
def process_url_go (env : Env) (fs0 : List String) (url output_dir : String)
    (fallback : List String → PResult × List String × List Event) :
    PResult × List String × List Event :=
  if output_dir ∈ fs0 then
    process_url_body env fs0 url output_dir fallback []
  else if env.mkdirFails output_dir then (PResult.fatal, fs0, [])
  else process_url_body env (output_dir :: fs0) url output_dir fallback [Event.mkdir output_dir]

/-- The `try_wayback` tail of `process_url` when the flag is set: look up
a snapshot; a truthy string snapshot URL is re-processed with the flag
cleared.  A truthy non-string snapshot value makes the recursive call
fail before any network request (`requests.get` rejects non-string URLs
inside `download_file`'s catch-all, the page scan is skipped, and the
flag is already cleared), so it returns `None` with no further events. -/
def waybackFallback (env : Env) (url output_dir : String) (fs : List String) :
    PResult × List String × List Event :=
  let wb := get_wayback_url (env.wayback url)
  if truthyJson wb then
    match wb with
    | Json.str u =>
      let r := process_url_go env fs u output_dir (fun fs2 => (PResult.done none, fs2, []))
      (r.1, r.2.1, Event.wayback url :: r.2.2)
    | _ => (PResult.done none, fs, [Event.wayback url])
  else (PResult.done none, fs, [Event.wayback url])

/-- `process_url(url, output_dir, try_wayback)` over the oracle `env` and
initial path set `fs`: create the output directory if missing, try the
direct download, scan a returned page for candidates and try them in
order, and finally (only when `try_wayback` is set) consult the archive
and restart once with the flag cleared. -/
def process_url (env : Env) (fs : List String) (url output_dir : String)
    (try_wayback : Bool) : PResult × List String × List Event :=
  process_url_go env fs url output_dir
    (if try_wayback then waybackFallback env url output_dir
     else fun fs2 => (PResult.done none, fs2, []))

/-- Number of wayback lookups in a trace. -/
def waybackCount (evs : List Event) : Nat :=
  evs.countP (fun e => match e with
    | Event.wayback _ => true
    | _ => false)

/-! ## Spec-side definitions (for refinement comparisons) -/

/-- Modelled from the claim's words (C2): filename derivation as "the
first rule that yields a non-empty name containing a dot, tried in order
Content-Disposition, URL path segment, synthesized name". -/
def derive_filename_claim (cd : Option String) (final_url content_type : String) : String :=
  let r1 := match get_filename_from_cd cd with
    | some s => s
    | none => ""
  let r2 := unquote (basename (urlPath final_url))
  let r3 :=
    "downloaded_audio" ++
      (if containsSubstr content_type "wav" then ".wav"
       else if containsSubstr content_type "ogg" then ".ogg"
       else ".mp3")
  if r1 ≠ "" ∧ r1.data.contains '.' then r1
  else if r2 ≠ "" ∧ r2.data.contains '.' then r2
  else r3

/-- Amended derivation rule (C2): the URL path segment is consulted only
when the Content-Disposition rule yields no name at all; a non-empty but
dotless Content-Disposition name falls through directly to the
synthesized name. -/
def derive_filename_amended (cd : Option String) (final_url content_type : String) : String :=
  let r1 := match get_filename_from_cd cd with
    | some s => s
    | none => ""
  let r2 := unquote (basename (urlPath final_url))
  let r3 :=
    "downloaded_audio" ++
      (if containsSubstr content_type "wav" then ".wav"
       else if containsSubstr content_type "ogg" then ".ogg"
       else ".mp3")
  if r1 ≠ "" then (if r1.data.contains '.' then r1 else r3)
  else if r2 ≠ "" ∧ r2.data.contains '.' then r2
  else r3

/-! ## Concrete documents and environments used as test vectors -/

/-- Parse tree of HTML containing one `<a href="b.mp3">` and one
`<audio src="a.wav">`. -/
def docC1 : List Node :=
  [Node.elem "html" [] [Node.elem "body" []
    [Node.elem "a" [("href", "b.mp3")] [],
     Node.elem "audio" [("src", "a.wav")] []]]]

/-- The corresponding raw HTML text. -/
def rawC1 : String :=
  "<a href=\"b.mp3\"></a><audio src=\"a.wav\"></audio>"

/-- Parse tree where the same URL is referenced both by an `<audio>`
source and by an `<a>` tag. -/
def docC7 : List Node :=
  [Node.elem "audio" [("src", "x.mp3")] [],
   Node.elem "a" [("href", "x.mp3")] []]

/-- The corresponding raw HTML text. -/
def rawC7 : String :=
  "<audio src=\"x.mp3\"></audio><a href=\"x.mp3\"></a>"

/-- A direct-audio response whose filename resolves to `clip.mp3`. -/
def respClip : Response :=
  { status := 200, contentType := "audio/mpeg", body := "",
    finalUrl := "http://h/clip.mp3", contentDisposition := none }

/-- Environment in which every fetch yields the `clip.mp3` binary
response and the filesystem accepts every write. -/
def envClip : Env :=
  { fetch := fun _ _ => FetchResult.ok respClip,
    wayback := fun _ => WaybackResp.netError,
    parse := fun _ => [],
    writeFails := fun _ => false,
    mkdirFails := fun _ => false }

/-- A non-2xx, non-4xx/5xx binary response (HTTP 304 with an audio
content type). -/
def resp304 : Response :=
  { status := 304, contentType := "audio/mpeg", body := "",
    finalUrl := "http://h/clip.mp3", contentDisposition := none }

/-- Environment serving the 304 binary response. -/
def env304 : Env :=
  { fetch := fun _ _ => FetchResult.ok resp304,
    wayback := fun _ => WaybackResp.netError,
    parse := fun _ => [],
    writeFails := fun _ => false,
    mkdirFails := fun _ => false }

/-- A 404 HTML error page response. -/
def resp404 : Response :=
  { status := 404, contentType := "text/html; charset=utf-8",
    body := "<p>gone</p>", finalUrl := "http://h/page",
    contentDisposition := none }

/-- Environment serving the 404 HTML page. -/
def env404 : Env :=
  { fetch := fun _ _ => FetchResult.ok resp404,
    wayback := fun _ => WaybackResp.netError,
    parse := fun _ => [],
    writeFails := fun _ => false,
    mkdirFails := fun _ => false }

/-- Wayback availability document whose closest snapshot is `u`. -/
def snapshotJson (u : String) : Json :=
  Json.obj [("archived_snapshots",
    Json.obj [("closest", Json.obj [("url", Json.str u)])])]

/-- Environment for the C3 counterexample: every fetch finds a direct
audio resource, but every filesystem write fails; a snapshot of the
original URL exists. -/
def envWriteFail : Env :=
  { fetch := fun _ _ => FetchResult.ok respClip,
    wayback := fun u => if u = "http://orig/a" then WaybackResp.ok (snapshotJson "http://wb/a")
      else WaybackResp.netError,
    parse := fun _ => [],
    writeFails := fun _ => true,
    mkdirFails := fun _ => false }

/-- Environment for the C4 depth-1 scenario: every URL fetches as an
HTML page with zero audio candidates, and every URL (the archived one
included) has a further snapshot. -/
def envChain : Env :=
  { fetch := fun u _ => FetchResult.ok
      { status := 200, contentType := "text/html", body := "<p>empty</p>",
        finalUrl := u, contentDisposition := none },
    wayback := fun u =>
      if u = "http://a" then WaybackResp.ok (snapshotJson "http://b")
      else WaybackResp.ok (snapshotJson "http://c"),
    parse := fun _ => [],
    writeFails := fun _ => false,
    mkdirFails := fun _ => false }


/-- The persistence path that `download_file` selects for a response
(definitionally the inline computation of its binary branch): derived
filename, sanitized, joined to the output directory, with the collision
counter applied against the existing paths. -/
def chosenPath (fs : List String) (output_dir : String) (r : Response) : String :=
  let filename := clean_filename (derive_filename r.contentDisposition r.finalUrl
    (toLowerStr r.contentType))
  let output_path := joinPath output_dir filename
  let se := splitext output_path
  resolveCollision fs se.1 se.2 (fs.length + 2) output_path 1

/-- Environment in which the target URL serves a 404 HTML error page that
references `x.mp3`, and that candidate downloads as audio: the error
page's body is scanned, not discarded. -/
def envScan404 : Env :=
  { fetch := fun u _ =>
      if u = "http://h/page" then FetchResult.ok
        { status := 404, contentType := "text/html", body := "<a href=\"x.mp3\">",
          finalUrl := "http://h/page", contentDisposition := none }
      else FetchResult.ok
        { status := 200, contentType := "audio/mpeg", body := "",
          finalUrl := "http://h/x.mp3", contentDisposition := none },
    wayback := fun _ => WaybackResp.netError,
    parse := fun _ => [Node.elem "a" [("href", "x.mp3")] []],
    writeFails := fun _ => false,
    mkdirFails := fun _ => false }

/-- Environment whose filesystem refuses to create directories. -/
def envMkdirFail : Env :=
  { fetch := fun _ _ => FetchResult.ok respClip,
    wayback := fun _ => WaybackResp.netError,
    parse := fun _ => [],
    writeFails := fun _ => false,
    mkdirFails := fun _ => true }


/-- Environment whose page holds an anchor `href="//[x.mp3"`: the value
passes `is_audio_url`, but resolving it makes `urljoin` raise
`ValueError: Invalid IPv6 URL`, crashing the resolution even though the
filesystem is fully writable. -/
def envBadCandidate : Env :=
  { fetch := fun _ _ => FetchResult.ok
      { status := 200, contentType := "text/html",
        body := "<a href=\"//[x.mp3\">", finalUrl := "http://h/page",
        contentDisposition := none },
    wayback := fun _ => WaybackResp.netError,
    parse := fun _ => [Node.elem "a" [("href", "//[x.mp3")] []],
    writeFails := fun _ => false,
    mkdirFails := fun _ => false }

/-! ## Lemmas: stable two-valued sorting is the stable partition -/

/-- Inserting an element with key `0` places it at the front. -/
lemma insertByKey_pos (p : α → Bool) (x : α) (l : List α) (hx : p x = true) :
    insertByKey (fun y => if p y then 0 else 1) x l = x :: l := by
  cases l with
  | nil => rfl
  | cons y ys => simp [insertByKey, hx]

/-- Inserting an element with key `1` into a `0`-block followed by a
`1`-block lands exactly between the blocks. -/
lemma insertByKey_neg (p : α → Bool) (x : α) (A B : List α) (hx : p x = false)
    (hA : ∀ a ∈ A, p a = true) (hB : ∀ b ∈ B, p b = false) :
    insertByKey (fun y => if p y then 0 else 1) x (A ++ B) = A ++ x :: B := by
  induction A with
  | nil =>
    cases B with
    | nil => rfl
    | cons b bs => simp [insertByKey, hx, hB b (by simp)]
  | cons a as ih =>
    have ha : p a = true := hA a (by simp)
    have h2 := ih (fun a2 ha2 => hA a2 (by simp [ha2]))
    simp only [List.cons_append, insertByKey, hx, ha, if_true, if_false, List.append_eq]
    simp [h2]

/-- A stable sort by the two-valued key `if p then 0 else 1` is exactly
the stable partition: the `p`-elements in original order, then the
non-`p` elements in original order. -/
lemma sortByKey_partition (p : α → Bool) (l : List α) :
    sortByKey (fun y => if p y then 0 else 1) l
      = l.filter p ++ l.filter (fun y => !(p y)) := by
  induction l with
  | nil => rfl
  | cons x t ih =>
    show insertByKey _ x (sortByKey _ t) = _
    rw [ih]
    by_cases hx : p x = true
    · rw [insertByKey_pos p x _ hx]
      simp [List.filter, hx]
    · have hx2 : p x = false := by simpa using hx
      rw [insertByKey_neg p x _ _ hx2
        (fun a ha => (List.mem_filter.mp ha).2)
        (fun b hb => by simpa using (List.mem_filter.mp hb).2)]
      simp [List.filter, hx2]

/-- `insertByKey` only rearranges: the result is a permutation of the
element consed on. -/
lemma insertByKey_perm (key : α → Nat) (x : α) (l : List α) :
    List.Perm (insertByKey key x l) (x :: l) := by
  induction l with
  | nil => exact List.Perm.refl _
  | cons y ys ih =>
    by_cases h : key x ≤ key y
    · simp [insertByKey, h]
    · simp only [insertByKey, if_neg h]
      exact (ih.cons y).trans (List.Perm.swap x y ys)

/-- `sortByKey` permutes its input. -/
lemma sortByKey_perm (key : α → Nat) (l : List α) :
    List.Perm (sortByKey key l) l := by
  induction l with
  | nil => exact List.Perm.refl _
  | cons x t ih =>
    exact (insertByKey_perm key x (sortByKey key t)).trans (ih.cons x)

/-- The dedup loop produces a duplicate-free list avoiding the seen set. -/
lemma dedupFirstAux_sound : ∀ (l seen : List String),
    (dedupFirstAux seen l).Nodup ∧ ∀ x ∈ dedupFirstAux seen l, x ∉ seen := by
  intro l
  induction l with
  | nil => intro seen; exact ⟨List.nodup_nil, by simp [dedupFirstAux]⟩
  | cons x xs ih =>
    intro seen
    by_cases hx : x ∈ seen
    · simpa [dedupFirstAux, hx] using ih seen
    · have h2 := ih (x :: seen)
      constructor
      · simp only [dedupFirstAux, if_neg hx, List.nodup_cons]
        refine ⟨fun hmem => ?_, h2.1⟩
        exact (h2.2 x hmem) (by simp)
      · intro y hy
        simp only [dedupFirstAux, if_neg hx, List.mem_cons] at hy
        rcases hy with rfl | hy
        · exact hx
        · intro hs
          exact (h2.2 y hy) (by simp [hs])

/-- Deduplicated lists are duplicate-free. -/
lemma dedupFirst_nodup (l : List String) : (dedupFirst l).Nodup :=
  (dedupFirstAux_sound l []).1

/-- Claim C1: for every HTML content and base URL, the candidate list of
`find_audio_on_page` is the stable partition of the deduplicated
discovery-order list: candidates whose URL ends in `.mp3`
(case-insensitively) first, in discovery order, then all others, in
discovery order; in particular HTML with one `<a href="b.mp3">` and one
`<audio src="a.wav">` yields `[resolved(b.mp3), resolved(a.wav)]`. -/
theorem claim_C1 :
    (∀ (ns : List Node) (html_content base_url : String),
      find_audio_on_page ns html_content base_url =
        (extractUnique ns html_content base_url).filter
          (fun u => endsWithStr (toLowerStr u) ".mp3") ++
        (extractUnique ns html_content base_url).filter
          (fun u => !(endsWithStr (toLowerStr u) ".mp3"))) ∧
    find_audio_on_page docC1 rawC1 "http://ex.com/page/index.html" =
      [urljoin "http://ex.com/page/index.html" "b.mp3",
       urljoin "http://ex.com/page/index.html" "a.wav"] := by
  constructor
  · intro ns html_content base_url
    show sortByKey mp3Key (extractUnique ns html_content base_url) = _
    exact sortByKey_partition (fun u => endsWithStr (toLowerStr u) ".mp3") _
  · decide

/-- Claim C7: the candidate list of `find_audio_on_page` never contains
two equal URL strings (dedup keeps the first occurrence); in particular a
URL discovered both by an `<audio>` source and by an `<a>` tag appears
exactly once. -/
theorem claim_C7 :
    (∀ (ns : List Node) (html_content base_url : String),
      (find_audio_on_page ns html_content base_url).Nodup) ∧
    (find_audio_on_page docC7 rawC7 "http://ex.com/page/index.html").count
        (urljoin "http://ex.com/page/index.html" "x.mp3") = 1 := by
  constructor
  · intro ns html_content base_url
    exact ((sortByKey_perm mp3Key _).nodup_iff).mpr (dedupFirst_nodup _)
  · decide

/-- Claim C2 counterexample: with a non-empty but dotless
Content-Disposition filename (`theaudio`), a final URL whose last path
segment is the dotted `song.mp3`, and an mpeg content type, the code
synthesizes `downloaded_audio.mp3` while the claimed rule order would
produce `song.mp3` — rule 2 is not tried after a non-empty rule-1 name. -/
theorem claim_C2_counterexample :
    derive_filename (some "attachment; filename=theaudio")
        "http://h/song.mp3" "audio/mpeg" = "downloaded_audio.mp3" ∧
    derive_filename_claim (some "attachment; filename=theaudio")
        "http://h/song.mp3" "audio/mpeg" = "song.mp3" ∧
    derive_filename (some "attachment; filename=theaudio")
        "http://h/song.mp3" "audio/mpeg" ≠
      derive_filename_claim (some "attachment; filename=theaudio")
        "http://h/song.mp3" "audio/mpeg" := by
  refine ⟨rfl, rfl, ?_⟩
  decide

/-- Claim C2 (amended): the saved filename is the Content-Disposition
name when that is non-empty and dotted; a non-empty dotless
Content-Disposition name falls through directly to the synthesized
`downloaded_audio` name; only when the Content-Disposition rule yields no
name at all is the percent-decoded last path segment of the final URL
consulted (used if non-empty and dotted, else the synthesized name). -/
theorem claim_C2 (cd : Option String) (final_url content_type : String) :
    derive_filename cd final_url content_type
      = derive_filename_amended cd final_url content_type := by
  unfold derive_filename derive_filename_amended
  cases h : get_filename_from_cd cd with
  | none =>
    by_cases h2 : unquote (basename (urlPath final_url)) = "" <;>
      by_cases h3 : (unquote (basename (urlPath final_url))).data.contains '.' <;>
        simp [h2, h3]
  | some s =>
    by_cases hs : s = ""
    · subst hs
      by_cases h2 : unquote (basename (urlPath final_url)) = "" <;>
        by_cases h3 : (unquote (basename (urlPath final_url))).data.contains '.' <;>
          simp [h2, h3]
    · by_cases hd : s.data.contains '.' <;> simp [hs, hd]

/-- Structure of `get_wayback_url` on a decoded document: it is `null`,
or it is exactly the value reached by the
`archived_snapshots.closest.url` path. -/
lemma gw_ok_cases (d : Json) :
    get_wayback_url (WaybackResp.ok d) = Json.null ∨
    ∃ v, urlFieldPath d = some v ∧ get_wayback_url (WaybackResp.ok d) = v := by
  cases d with
  | null => exact Or.inl rfl
  | bool b => exact Or.inl rfl
  | num n => exact Or.inl rfl
  | str s => exact Or.inl rfl
  | arr l => exact Or.inl rfl
  | obj fields =>
    cases hf : List.find? (fun p => p.1 = "archived_snapshots") fields with
    | none =>
      left
      simp [get_wayback_url, pyGet, jsonField, hf, truthyJson]
    | some pa =>
      cases hpa : pa.2 with
      | obj f2 =>
        cases hf2 : List.find? (fun p => p.1 = "closest") f2 with
        | none =>
          left
          simp [get_wayback_url, urlFieldPath, pyGet, pyIndex, jsonField, hf, hpa, hf2, truthyJson]
        | some pc =>
          have hne2 : f2 ≠ [] := by
            intro hnil; subst hnil; simp at hf2
          cases hpc : pc.2 with
          | obj f3 =>
            cases hf3 : List.find? (fun p => p.1 = "url") f3 with
            | none =>
              left
              simp [get_wayback_url, urlFieldPath, pyGet, pyIndex, jsonField, hf, hpa, hf2, hpc, hf3, truthyJson, hne2]
            | some pu =>
              right
              refine ⟨pu.2, ?_, ?_⟩
              · simp [urlFieldPath, jsonField, hf, hpa, hf2, hpc, hf3]
              · have hne3 : f3 ≠ [] := by
                  intro hnil; subst hnil; simp at hf3
                simp [get_wayback_url, pyGet, pyIndex, jsonField, hf, hpa, hf2, hpc, hf3, truthyJson, hne2, hne3]
          | null =>
            left
            simp [get_wayback_url, pyGet, pyIndex, jsonField, hf, hpa, hf2, hpc, truthyJson, hne2]
          | bool b =>
            left
            simp [get_wayback_url, pyGet, pyIndex, jsonField, hf, hpa, hf2, hpc, truthyJson, hne2]
          | num n =>
            left
            simp [get_wayback_url, pyGet, pyIndex, jsonField, hf, hpa, hf2, hpc, truthyJson, hne2]
          | str s =>
            left
            simp [get_wayback_url, pyGet, pyIndex, jsonField, hf, hpa, hf2, hpc, truthyJson, hne2]
          | arr l =>
            left
            simp [get_wayback_url, pyGet, pyIndex, jsonField, hf, hpa, hf2, hpc, truthyJson, hne2]
      | null =>
        left
        simp [get_wayback_url, pyGet, jsonField, hf, hpa, truthyJson]
      | bool b =>
        left
        simp [get_wayback_url, pyGet, jsonField, hf, hpa, truthyJson]
      | num n =>
        left
        simp [get_wayback_url, pyGet, jsonField, hf, hpa, truthyJson]
      | str s =>
        left
        simp [get_wayback_url, pyGet, jsonField, hf, hpa, truthyJson]
      | arr l =>
        left
        simp [get_wayback_url, pyGet, jsonField, hf, hpa, truthyJson]

/-- Claim C8: `get_wayback_url` never raises (it is a total function of
the endpoint response in this embedding): a network error, a non-JSON
body, or a document in which the `archived_snapshots.closest.url` path is
missing all yield the no-snapshot result `None`, and a snapshot URL
string is returned only when that field is present (with that value). -/
theorem claim_C8 :
    (get_wayback_url WaybackResp.netError = Json.null) ∧
    (get_wayback_url WaybackResp.notJson = Json.null) ∧
    (∀ d : Json, urlFieldPath d = none → get_wayback_url (WaybackResp.ok d) = Json.null) ∧
    (∀ (d : Json) (u : String), get_wayback_url (WaybackResp.ok d) = Json.str u →
      urlFieldPath d = some (Json.str u)) := by
  refine ⟨rfl, rfl, ?_, ?_⟩
  · intro d hnone
    rcases gw_ok_cases d with h | ⟨v, hv, hres⟩
    · exact h
    · rw [hv] at hnone
      exact Option.noConfusion hnone
  · intro d u hstr
    rcases gw_ok_cases d with h | ⟨v, hv, hres⟩
    · rw [h] at hstr
      exact Json.noConfusion hstr
    · have hvu : v = Json.str u := hres.symm.trans hstr
      rw [hvu] at hv
      exact hv

/-- Witness for C8: a document without the field yields `null`, and a
well-formed snapshot document returns exactly its `url` value. -/
theorem claim_C8_witness :
    get_wayback_url (WaybackResp.ok (Json.num 3)) = Json.null ∧
    urlFieldPath (snapshotJson "http://wb/a") = some (Json.str "http://wb/a") :=
  ⟨claim_C8.2.2.1 (Json.num 3) rfl,
   claim_C8.2.2.2 (snapshotJson "http://wb/a") "http://wb/a" rfl⟩

/-- Claim C5 counterexample: HTTP 304 with an audio content type is not a
2xx status, yet `download_file` persists it (`raise_for_status` raises
only for 400–599), contradicting "a non-2xx status yields Failed". -/
theorem claim_C5_counterexample :
    ¬(200 ≤ resp304.status ∧ resp304.status ≤ 299) ∧
    download_file env304 [] "http://h/clip.mp3" "downloads" none
      = (DlOutcome.saved "downloads/clip.mp3", ["downloads/clip.mp3"]) := by
  constructor
  · decide
  · rfl

/-- Claim C5 (amended): each fetched response is classified exactly once:
if the content type contains `text/html` and the requested URL does not
end in a recognized audio extension the outcome is the HTML page with
its body and post-redirect URL; otherwise a status in 400–599 (not: any
non-2xx status) yields `failed`, and any other status is persisted —
yielding `saved` with the chosen path when the write succeeds and
`failed` when the filesystem refuses the write. -/
theorem claim_C5 (env : Env) (fs : List String) (url output_dir : String)
    (referer : Option String) (r : Response)
    (hf : env.fetch url referer = FetchResult.ok r) :
    ((containsSubstr (toLowerStr r.contentType) "text/html" && !(is_audio_url url)) = true →
      download_file env fs url output_dir referer = (DlOutcome.htmlPage r.body r.finalUrl, fs)) ∧
    ((containsSubstr (toLowerStr r.contentType) "text/html" && !(is_audio_url url)) = false →
      (400 ≤ r.status && r.status ≤ 599) = true →
      download_file env fs url output_dir referer = (DlOutcome.failed, fs)) ∧
    ((containsSubstr (toLowerStr r.contentType) "text/html" && !(is_audio_url url)) = false →
      (400 ≤ r.status && r.status ≤ 599) = false →
      env.writeFails (chosenPath fs output_dir r) = false →
      download_file env fs url output_dir referer =
        (DlOutcome.saved (chosenPath fs output_dir r), chosenPath fs output_dir r :: fs)) ∧
    ((containsSubstr (toLowerStr r.contentType) "text/html" && !(is_audio_url url)) = false →
      (400 ≤ r.status && r.status ≤ 599) = false →
      env.writeFails (chosenPath fs output_dir r) = true →
      download_file env fs url output_dir referer = (DlOutcome.failed, fs)) := by
  refine ⟨?_, ?_, ?_, ?_⟩
  · intro h1
    unfold download_file
    rw [hf]
    simp [h1]
  · intro h1 h2
    unfold download_file
    rw [hf]
    simp [h1, h2]
  · intro h1 h2 h3
    unfold download_file
    rw [hf]
    simp only [h1, h2, Bool.false_eq_true, if_false]
    unfold chosenPath at h3
    simp only [h3]
    rfl
  · intro h1 h2 h3
    unfold download_file
    rw [hf]
    simp only [h1, h2, Bool.false_eq_true, if_false]
    unfold chosenPath at h3
    simp [h3]

/-- Witness for C5 (amended): a 200 audio response in a writable
directory is saved at the chosen path. -/
theorem claim_C5_witness :
    download_file envClip [] "http://h/clip.mp3" "downloads" none
      = (DlOutcome.saved "downloads/clip.mp3", ["downloads/clip.mp3"]) :=
  (claim_C5 envClip [] "http://h/clip.mp3" "downloads" none respClip rfl).2.2.1 rfl rfl rfl

/-- Claim C9: the HTML-page classification precedes the status check —
for every response whose (lowercased) content type contains `text/html`
fetched from a URL without an audio extension, `download_file` returns
the page outcome whatever the status (a 404 error page included), and
such a page really is scanned afterwards: in a concrete run whose only
audio reference sits inside a 404 error page, the referenced file is
found and downloaded. -/
theorem claim_C9 :
    (∀ (env : Env) (fs : List String) (url output_dir : String)
      (referer : Option String) (r : Response),
      env.fetch url referer = FetchResult.ok r →
      containsSubstr (toLowerStr r.contentType) "text/html" = true →
      is_audio_url url = false →
      download_file env fs url output_dir referer = (DlOutcome.htmlPage r.body r.finalUrl, fs)) ∧
    process_url envScan404 [] "http://h/page" "downloads" false
      = (PResult.done (some "downloads/x.mp3"),
         ["downloads/x.mp3", "downloads"],
         [Event.mkdir "downloads", Event.fetch "http://h/page",
          Event.fetch "http://h/x.mp3"]) := by
  constructor
  · intro env fs url output_dir referer r hf hct hurl
    unfold download_file
    rw [hf]
    simp [hct, hurl]
  · rfl

/-- Witness for C9: the 404 HTML error page is classified as a page, not
as a failure. -/
theorem claim_C9_witness :
    resp404.status = 404 ∧
    download_file env404 [] "http://h/page" "downloads" none
      = (DlOutcome.htmlPage "<p>gone</p>" "http://h/page", []) :=
  ⟨rfl, claim_C9.1 env404 [] "http://h/page" "downloads" none resp404 rfl rfl rfl⟩

/-! ## Lemmas: freshness of the collision-avoidance loop -/

lemma natStrAux_eq_digits : ∀ (fuel n : Nat), n < fuel →
    natStrAux fuel n = (Nat.digits 10 n).map Nat.digitChar := by
  intro fuel
  induction fuel with
  | zero => intro n h; omega
  | succ f ih =>
    intro n h
    by_cases h0 : n = 0
    · subst h0; simp [natStrAux]
    · have hpos : 0 < n := Nat.pos_of_ne_zero h0
      rw [natStrAux, if_neg h0, Nat.digits_def' (by norm_num) hpos]
      have hlt : n / 10 < f := by
        have := Nat.div_lt_self hpos (by norm_num : 1 < 10)
        omega
      rw [ih (n / 10) hlt]
      simp

lemma digitChar_inj10 : ∀ a b : Fin 10, Nat.digitChar a.val = Nat.digitChar b.val → a = b := by
  decide

lemma map_digitChar_inj : ∀ l1 l2 : List Nat, (∀ x ∈ l1, x < 10) → (∀ x ∈ l2, x < 10) →
    l1.map Nat.digitChar = l2.map Nat.digitChar → l1 = l2 := by
  intro l1
  induction l1 with
  | nil => intro l2 _ _ h; cases l2 with
    | nil => rfl
    | cons b bs => simp at h
  | cons a as ih =>
    intro l2 h1 h2 h
    cases l2 with
    | nil => simp at h
    | cons b bs =>
      simp only [List.map_cons, List.cons.injEq] at h
      have ha : a < 10 := h1 a (by simp)
      have hb : b < 10 := h2 b (by simp)
      have hab : a = b := by
        have := digitChar_inj10 ⟨a, ha⟩ ⟨b, hb⟩ h.1
        exact congrArg Fin.val this
      rw [hab, ih bs (fun x hx => h1 x (by simp [hx])) (fun x hx => h2 x (by simp [hx])) h.2]

lemma natStr_inj_pos (m n : Nat) (hm : 1 ≤ m) (hn : 1 ≤ n) (h : natStr m = natStr n) : m = n := by
  unfold natStr at h
  rw [if_neg (by omega), if_neg (by omega)] at h
  have hdata : (natStrAux (m + 1) m).reverse = (natStrAux (n + 1) n).reverse := congrArg String.data h
  have h2 : natStrAux (m + 1) m = natStrAux (n + 1) n := List.reverse_injective hdata
  rw [natStrAux_eq_digits (m + 1) m (by omega), natStrAux_eq_digits (n + 1) n (by omega)] at h2
  have h3 := map_digitChar_inj _ _
    (fun x hx => Nat.digits_lt_base (by norm_num) hx)
    (fun x hx => Nat.digits_lt_base (by norm_num) hx) h2
  exact Nat.digits_inj_iff.mp h3

lemma str_data_append (a b : String) : (a ++ b).data = a.data ++ b.data := by
  cases a; cases b; rfl

lemma str_data_inj (a b : String) (h : a.data = b.data) : a = b := by
  cases a; cases b; exact congrArg String.mk h

lemma candidate_inj (base ext : String) (i j : Nat) (hi : 1 ≤ i) (hj : 1 ≤ j)
    (h : base ++ "_" ++ natStr i ++ ext = base ++ "_" ++ natStr j ++ ext) : i = j := by
  have hd := congrArg String.data h
  simp only [str_data_append] at hd
  have hd2 := List.append_cancel_right hd
  have hd3 := List.append_cancel_left hd2
  exact natStr_inj_pos i j hi hj (str_data_inj _ _ hd3)

lemma exists_fresh_counter (fs : List String) (base ext : String) :
    ∃ k, k < fs.length + 1 ∧ (base ++ "_" ++ natStr (k + 1) ++ ext) ∉ fs := by
  by_contra hcon
  push_neg at hcon
  have hsub : ((List.range (fs.length + 1)).map
      (fun k => base ++ "_" ++ natStr (k + 1) ++ ext)) ⊆ fs := by
    intro x hx
    rcases List.mem_map.mp hx with ⟨k, hk, rfl⟩
    exact hcon k (List.mem_range.mp hk)
  have hnd : ((List.range (fs.length + 1)).map
      (fun k => base ++ "_" ++ natStr (k + 1) ++ ext)).Nodup := by
    refine List.Nodup.map_on ?_ (List.nodup_range _)
    intro x _ y _ hxy
    have := candidate_inj base ext (x + 1) (y + 1) (by omega) (by omega) hxy
    omega
  have hle := (hnd.subperm hsub).length_le
  simp at hle

lemma resolveCollision_not_mem (fs : List String) (base ext : String) :
    ∀ (fuel : Nat) (path : String) (counter : Nat),
      (path ∉ fs ∨ ∃ j, counter ≤ j ∧ j - counter + 1 < fuel ∧
        (base ++ "_" ++ natStr j ++ ext) ∉ fs) →
      resolveCollision fs base ext fuel path counter ∉ fs := by
  intro fuel
  induction fuel with
  | zero =>
    intro path counter h
    rcases h with h | ⟨j, _, hj, _⟩
    · exact h
    · omega
  | succ f ih =>
    intro path counter h
    by_cases hp : path ∈ fs
    · rw [resolveCollision, if_pos hp]
      rcases h with h | ⟨j, hj1, hj2, hj3⟩
      · exact absurd hp h
      · by_cases hjc : j = counter
        · subst hjc
          exact ih _ _ (Or.inl hj3)
        · exact ih _ _ (Or.inr ⟨j, by omega, by omega, hj3⟩)
    · rw [resolveCollision, if_neg hp]
      exact hp

lemma resolveCollision_fresh (fs : List String) (base ext path : String) :
    resolveCollision fs base ext (fs.length + 2) path 1 ∉ fs := by
  rcases exists_fresh_counter fs base ext with ⟨k, hk, hfree⟩
  exact resolveCollision_not_mem fs base ext (fs.length + 2) path 1
    (Or.inr ⟨k + 1, by omega, by omega, hfree⟩)

/-- Claim C6: when the sanitized name's path already exists, the
collision loop appends `_1`, `_2`, … until a free path is found, so a
saved path never exists in the pre-state path set; in particular two
downloads both resolving to `clip.mp3` in the same directory yield
`clip.mp3` and then `clip_1.mp3`. -/
theorem claim_C6 :
    (∀ (env : Env) (fs : List String) (url output_dir : String)
      (referer : Option String) (p : String),
      (download_file env fs url output_dir referer).1 = DlOutcome.saved p → p ∉ fs) ∧
    download_file envClip [] "http://h/clip.mp3" "downloads" none
      = (DlOutcome.saved "downloads/clip.mp3", ["downloads/clip.mp3"]) ∧
    download_file envClip ["downloads/clip.mp3"] "http://h/clip.mp3" "downloads" none
      = (DlOutcome.saved "downloads/clip_1.mp3",
         ["downloads/clip_1.mp3", "downloads/clip.mp3"]) := by
  refine ⟨?_, rfl, rfl⟩
  intro env fs url output_dir referer p h
  unfold download_file at h
  cases hf : env.fetch url referer with
  | err =>
    rw [hf] at h
    exact absurd h (by simp)
  | ok r =>
    rw [hf] at h
    dsimp only at h
    split at h
    · exact absurd h (by simp)
    · split at h
      · exact absurd h (by simp)
      · split at h
        · exact absurd h (by simp)
        · injection h with h4
          rw [← h4]
          exact resolveCollision_fresh fs _ _ _

/-- Witness for C6: the path chosen over an occupied directory is indeed
absent from it. -/
theorem claim_C6_witness :
    "downloads/clip_1.mp3" ∉ ["downloads/clip.mp3"] :=
  claim_C6.1 envClip ["downloads/clip.mp3"] "http://h/clip.mp3" "downloads" none
    "downloads/clip_1.mp3" rfl

/-! ## Lemmas: state growth, traces, and fatality of the orchestrator -/

lemma download_file_fs_mono (env : Env) (fs : List String) (url output_dir : String)
    (referer : Option String) : fs ⊆ (download_file env fs url output_dir referer).2 := by
  unfold download_file
  cases env.fetch url referer with
  | err => exact fun x hx => hx
  | ok r =>
    dsimp only
    split
    · exact fun x hx => hx
    · split
      · exact fun x hx => hx
      · split
        · exact fun x hx => hx
        · exact fun x hx => List.mem_cons_of_mem _ hx

lemma tryCandidates_fs_mono (env : Env) (output_dir referer : String) :
    ∀ (links fs : List String),
      fs ⊆ (tryCandidates env fs output_dir referer links).2.1 := by
  intro links
  induction links with
  | nil => intro fs x hx; exact hx
  | cons link rest ih =>
    intro fs
    unfold tryCandidates
    dsimp only
    split
    · exact download_file_fs_mono env fs link output_dir (some referer)
    · intro x hx
      exact ih _ (download_file_fs_mono env fs link output_dir (some referer) hx)

lemma process_url_body_fs_mono (env : Env) (fs1 : List String) (url output_dir : String)
    (fb : List String → PResult × List String × List Event) (ev0 : List Event)
    (hfb : ∀ fs2, fs2 ⊆ (fb fs2).2.1) :
    fs1 ⊆ (process_url_body env fs1 url output_dir fb ev0).2.1 := by
  unfold process_url_body
  dsimp only
  have hd := download_file_fs_mono env fs1 url output_dir none
  split
  · exact hd
  · split
    · exact fun x hx => hfb _ (hd hx)
    · split
      · exact hd
      · split
        · exact fun x hx =>
            tryCandidates_fs_mono env output_dir _ _ _ (hd hx)
        · exact fun x hx =>
            hfb _ (tryCandidates_fs_mono env output_dir _ _ _ (hd hx))
  · exact fun x hx => hfb _ (hd hx)

lemma process_url_go_fs_mono (env : Env) (fs0 : List String) (url output_dir : String)
    (fb : List String → PResult × List String × List Event)
    (hfb : ∀ fs2, fs2 ⊆ (fb fs2).2.1) :
    fs0 ⊆ (process_url_go env fs0 url output_dir fb).2.1 := by
  unfold process_url_go
  split
  · exact process_url_body_fs_mono env fs0 url output_dir fb [] hfb
  · split
    · exact fun x hx => hx
    · exact fun x hx =>
        process_url_body_fs_mono env (output_dir :: fs0) url output_dir fb _ hfb
          (List.mem_cons_of_mem _ hx)

lemma process_url_go_mem (env : Env) (fs0 : List String) (url output_dir : String)
    (fb : List String → PResult × List String × List Event)
    (hfb : ∀ fs2, fs2 ⊆ (fb fs2).2.1)
    (hm : output_dir ∈ fs0 ∨ env.mkdirFails output_dir = false) :
    output_dir ∈ (process_url_go env fs0 url output_dir fb).2.1 := by
  unfold process_url_go
  split
  · exact process_url_body_fs_mono env fs0 url output_dir fb [] hfb (by assumption)
  · split
    · rename_i hnotin hfail
      rcases hm with hm | hm
      · exact absurd hm hnotin
      · rw [hm] at hfail; cases hfail
    · exact process_url_body_fs_mono env (output_dir :: fs0) url output_dir fb _ hfb
        (by simp)

lemma process_url_body_head (env : Env) (fs1 : List String) (url output_dir : String)
    (fb : List String → PResult × List String × List Event) (e : Event) (ev0 : List Event) :
    (process_url_body env fs1 url output_dir fb (e :: ev0)).2.2.head? = some e := by
  unfold process_url_body
  dsimp only
  split
  · simp
  · split
    · simp
    · split
      · simp
      · split
        · simp
        · simp
  · simp

lemma fallback_fs_mono (env : Env) (url output_dir : String) (try_wayback : Bool) :
    ∀ fs2, fs2 ⊆ ((if try_wayback then waybackFallback env url output_dir
      else fun fs3 => (PResult.done none, fs3, [])) fs2).2.1 := by
  intro fs2
  split
  · unfold waybackFallback
    dsimp only
    split
    · split
      · exact process_url_go_fs_mono env fs2 _ output_dir _ (fun fs3 x hx => hx)
      · exact fun x hx => hx
    · exact fun x hx => hx
  · exact fun x hx => hx

/-- Claim C10: `process_url` creates the output directory: provided the
filesystem lets the directory be created, after any call the output
directory exists, and when it was missing the `mkdir` is the very first
effect, before any network request. -/
theorem claim_C10 (env : Env) (fs : List String) (url output_dir : String)
    (try_wayback : Bool)
    (hm : output_dir ∈ fs ∨ env.mkdirFails output_dir = false) :
    output_dir ∈ (process_url env fs url output_dir try_wayback).2.1 ∧
    (output_dir ∉ fs →
      (process_url env fs url output_dir try_wayback).2.2.head?
        = some (Event.mkdir output_dir)) := by
  constructor
  · exact process_url_go_mem env fs url output_dir _
      (fallback_fs_mono env url output_dir try_wayback) hm
  · intro hnotin
    have hmk : env.mkdirFails output_dir = false := by
      rcases hm with hm | hm
      · exact absurd hm hnotin
      · exact hm
    unfold process_url process_url_go
    rw [if_neg hnotin, if_neg (by rw [hmk]; exact Bool.false_ne_true)]
    exact process_url_body_head env _ url output_dir _ _ []

lemma waybackCount_append (a b : List Event) :
    waybackCount (a ++ b) = waybackCount a + waybackCount b := by
  unfold waybackCount
  exact List.countP_append _ _ _

lemma waybackCount_nil : waybackCount [] = 0 := rfl

lemma waybackCount_fetch (u : String) (l : List Event) :
    waybackCount (Event.fetch u :: l) = waybackCount l := by
  simp [waybackCount, List.countP_cons]

lemma waybackCount_mkdir (d : String) (l : List Event) :
    waybackCount (Event.mkdir d :: l) = waybackCount l := by
  simp [waybackCount, List.countP_cons]

lemma waybackCount_wb (u : String) (l : List Event) :
    waybackCount (Event.wayback u :: l) = waybackCount l + 1 := by
  simp [waybackCount, List.countP_cons]

lemma tryCandidates_no_wayback (env : Env) (output_dir referer : String) :
    ∀ (links fs : List String),
      waybackCount (tryCandidates env fs output_dir referer links).2.2 = 0 := by
  intro links
  induction links with
  | nil => intro fs; rfl
  | cons link rest ih =>
    intro fs
    unfold tryCandidates
    dsimp only
    split
    · rfl
    · rw [waybackCount_fetch]
      exact ih (download_file env fs link output_dir (some referer)).2

lemma process_url_body_count (env : Env) (fs1 : List String) (url output_dir : String)
    (fb : List String → PResult × List String × List Event) (ev0 : List Event)
    (hev0 : waybackCount ev0 = 0) (n : Nat)
    (hfb : ∀ fs2, waybackCount (fb fs2).2.2 ≤ n) :
    waybackCount (process_url_body env fs1 url output_dir fb ev0).2.2 ≤ n := by
  unfold process_url_body
  dsimp only
  split
  · simp [waybackCount_append, waybackCount_fetch, waybackCount_nil, hev0]
  · split
    · simpa [waybackCount_append, waybackCount_fetch, waybackCount_nil, hev0] using hfb _
    · split
      · simp [waybackCount_append, waybackCount_fetch, waybackCount_nil, hev0]
      · split
        · simp [waybackCount_append, waybackCount_fetch, waybackCount_nil, hev0,
            tryCandidates_no_wayback]
        · simpa [waybackCount_append, waybackCount_fetch, waybackCount_nil, hev0,
            tryCandidates_no_wayback] using hfb _
  · simpa [waybackCount_append, waybackCount_fetch, waybackCount_nil, hev0] using hfb _

lemma process_url_go_count (env : Env) (fs0 : List String) (url output_dir : String)
    (fb : List String → PResult × List String × List Event) (n : Nat)
    (hfb : ∀ fs2, waybackCount (fb fs2).2.2 ≤ n) :
    waybackCount (process_url_go env fs0 url output_dir fb).2.2 ≤ n := by
  unfold process_url_go
  split
  · exact process_url_body_count env fs0 url output_dir fb [] rfl n hfb
  · split
    · simp [waybackCount_nil]
    · exact process_url_body_count env (output_dir :: fs0) url output_dir fb
        [Event.mkdir output_dir] (by simp [waybackCount_mkdir, waybackCount_nil]) n hfb

lemma waybackFallback_count (env : Env) (url output_dir : String) (fs : List String) :
    waybackCount (waybackFallback env url output_dir fs).2.2 ≤ 1 := by
  unfold waybackFallback
  dsimp only
  split
  · split
    · rename_i u heq
      have hg := process_url_go_count env fs u output_dir
        (fun fs2 => (PResult.done none, fs2, [])) 0
        (fun fs2 => by simp [waybackCount_nil])
      rw [waybackCount_wb]
      omega
    · simp [waybackCount_wb, waybackCount_nil]
  · simp [waybackCount_wb, waybackCount_nil]

/-- Claim C4: at most one archive-fallback recursion ever happens: with
the flag cleared no wayback lookup occurs at all, with the flag set at
most one lookup occurs in the whole (always-terminating) run — and in a
concrete run whose archived URL is itself an HTML page with zero
candidates and a further snapshot on record, that second snapshot is
never requested (exactly one wayback event). -/
theorem claim_C4 :
    (∀ (env : Env) (fs : List String) (url output_dir : String),
      waybackCount (process_url env fs url output_dir false).2.2 = 0) ∧
    (∀ (env : Env) (fs : List String) (url output_dir : String),
      waybackCount (process_url env fs url output_dir true).2.2 ≤ 1) ∧
    waybackCount (process_url envChain [] "http://a" "downloads" true).2.2 = 1 ∧
    process_url envChain [] "http://a" "downloads" true
      = (PResult.done none, ["downloads"],
         [Event.mkdir "downloads", Event.fetch "http://a", Event.wayback "http://a",
          Event.fetch "http://b"]) ∧
    envChain.wayback "http://b" = WaybackResp.ok (snapshotJson "http://c") := by
  refine ⟨?_, ?_, rfl, rfl, rfl⟩
  · intro env fs url output_dir
    exact Nat.le_zero.mp (process_url_go_count env fs url output_dir
      (fun fs2 => (PResult.done none, fs2, [])) 0
      (fun fs2 => by simp [waybackCount_nil]))
  · intro env fs url output_dir
    exact process_url_go_count env fs url output_dir
      (waybackFallback env url output_dir) 1
      (fun fs2 => waybackFallback_count env url output_dir fs2)

/-- When the fetched response is an HTML page by the classification rule,
`download_file` returns it with the path set unchanged. -/
lemma download_file_html (env : Env) (fs : List String) (url output_dir : String)
    (referer : Option String) (r : Response)
    (hf : env.fetch url referer = FetchResult.ok r)
    (hhtml : (containsSubstr (toLowerStr r.contentType) "text/html" &&
      !(is_audio_url url)) = true) :
    download_file env fs url output_dir referer
      = (DlOutcome.htmlPage r.body r.finalUrl, fs) := by
  unfold download_file
  rw [hf]
  simp [hhtml]

/-- An `htmlPage` outcome always carries the body and final URL of the
response the fetch oracle produced. -/
lemma download_file_htmlPage_inv (env : Env) (fs : List String) (url output_dir : String)
    (referer : Option String) (c f : String)
    (h : (download_file env fs url output_dir referer).1 = DlOutcome.htmlPage c f) :
    ∃ r2, env.fetch url referer = FetchResult.ok r2 ∧ c = r2.body ∧ f = r2.finalUrl := by
  unfold download_file at h
  cases hf : env.fetch url referer with
  | err =>
    rw [hf] at h
    exact absurd h (by simp)
  | ok r2 =>
    rw [hf] at h
    dsimp only at h
    split at h
    · injection h with h1 h2
      exact ⟨r2, rfl, h1.symm, h2.symm⟩
    · split at h
      · exact absurd h (by simp)
      · split at h
        · exact absurd h (by simp)
        · exact absurd h (by simp)

/-- When the direct fetch is an HTML page with a non-empty body whose
candidate resolution raises, the body aborts with `scanError` before any
candidate or fallback step. -/
lemma process_url_body_scanError (env : Env) (fs1 : List String) (url output_dir : String)
    (fb : List String → PResult × List String × List Event) (ev0 : List Event) (r : Response)
    (hf : env.fetch url none = FetchResult.ok r)
    (hhtml : (containsSubstr (toLowerStr r.contentType) "text/html" &&
      !(is_audio_url url)) = true)
    (hbody : r.body ≠ "")
    (hraise : extractRaises (env.parse r.body) r.body r.finalUrl = true) :
    (process_url_body env fs1 url output_dir fb ev0).1 = PResult.scanError := by
  have hd := download_file_html env fs1 url output_dir none r hf hhtml
  unfold process_url_body
  rw [hd]
  dsimp only
  rw [if_neg hbody, if_pos hraise]

/-- The `scanError` abort of the body propagates out of the `makedirs`
wrapper whenever the directory step itself does not fail first. -/
lemma process_url_go_scanError (env : Env) (fs0 : List String) (url output_dir : String)
    (fb : List String → PResult × List String × List Event) (r : Response)
    (hm : output_dir ∈ fs0 ∨ env.mkdirFails output_dir = false)
    (hf : env.fetch url none = FetchResult.ok r)
    (hhtml : (containsSubstr (toLowerStr r.contentType) "text/html" &&
      !(is_audio_url url)) = true)
    (hbody : r.body ≠ "")
    (hraise : extractRaises (env.parse r.body) r.body r.finalUrl = true) :
    (process_url_go env fs0 url output_dir fb).1 = PResult.scanError := by
  unfold process_url_go
  split
  · exact process_url_body_scanError env fs0 url output_dir fb [] r hf hhtml hbody hraise
  · split
    · rename_i hnotin hfail
      rcases hm with hm | hm
      · exact absurd hm hnotin
      · rw [hm] at hfail
        cases hfail
    · exact process_url_body_scanError env (output_dir :: fs0) url output_dir fb _ r
        hf hhtml hbody hraise

/-- When no fetchable page has a raising candidate set and the fallback
finishes normally, the body finishes normally. -/
lemma process_url_body_done (env : Env) (fs1 : List String) (url output_dir : String)
    (fb : List String → PResult × List String × List Event) (ev0 : List Event)
    (hscan : ∀ (u : String) (ref : Option String) (r2 : Response),
      env.fetch u ref = FetchResult.ok r2 →
      r2.body = "" ∨ extractRaises (env.parse r2.body) r2.body r2.finalUrl = false)
    (hfb : ∀ fs2, fs1 ⊆ fs2 → ∃ q, (fb fs2).1 = PResult.done q) :
    ∃ q, (process_url_body env fs1 url output_dir fb ev0).1 = PResult.done q := by
  unfold process_url_body
  dsimp only
  split
  · exact ⟨_, rfl⟩
  · rename_i content finalUrl heq
    split
    · exact hfb _ (download_file_fs_mono env fs1 url output_dir none)
    · rename_i hcontent
      split
      · rename_i hraise
        rcases download_file_htmlPage_inv env fs1 url output_dir none content finalUrl heq
          with ⟨r2, hf2, hc, hfin⟩
        rcases hscan url none r2 hf2 with hb | hb
        · rw [hc, hb] at hcontent
          exact absurd rfl hcontent
        · rw [hc, hfin] at hraise
          rw [hraise] at hb
          cases hb
      · split
        · exact ⟨_, rfl⟩
        · exact hfb _ (fun x hx => tryCandidates_fs_mono env output_dir _ _ _
            (download_file_fs_mono env fs1 url output_dir none hx))
  · exact hfb _ (download_file_fs_mono env fs1 url output_dir none)

/-- Normal completion of `process_url_go` under the same conditions,
provided the directory step succeeds. -/
lemma process_url_go_done (env : Env) (fs0 : List String) (url output_dir : String)
    (fb : List String → PResult × List String × List Event)
    (hm : output_dir ∈ fs0 ∨ env.mkdirFails output_dir = false)
    (hscan : ∀ (u : String) (ref : Option String) (r2 : Response),
      env.fetch u ref = FetchResult.ok r2 →
      r2.body = "" ∨ extractRaises (env.parse r2.body) r2.body r2.finalUrl = false)
    (hfb : ∀ fs2, output_dir ∈ fs2 → ∃ q, (fb fs2).1 = PResult.done q) :
    ∃ q, (process_url_go env fs0 url output_dir fb).1 = PResult.done q := by
  unfold process_url_go
  split
  · rename_i hin
    exact process_url_body_done env fs0 url output_dir fb [] hscan
      (fun fs2 hsub => hfb fs2 (hsub hin))
  · split
    · rename_i hnotin hfail
      rcases hm with hm | hm
      · exact absurd hm hnotin
      · rw [hm] at hfail
        cases hfail
    · exact process_url_body_done env (output_dir :: fs0) url output_dir fb _ hscan
        (fun fs2 hsub => hfb fs2 (hsub (by simp)))

/-- Normal completion of the wayback fallback under the same conditions
(the recursive call sees an existing directory, so it cannot turn fatal). -/
lemma waybackFallback_done (env : Env) (url output_dir : String) (fs : List String)
    (hin : output_dir ∈ fs)
    (hscan : ∀ (u : String) (ref : Option String) (r2 : Response),
      env.fetch u ref = FetchResult.ok r2 →
      r2.body = "" ∨ extractRaises (env.parse r2.body) r2.body r2.finalUrl = false) :
    ∃ q, (waybackFallback env url output_dir fs).1 = PResult.done q := by
  unfold waybackFallback
  dsimp only
  split
  · split
    · rename_i u heq
      rcases process_url_go_done env fs u output_dir
        (fun fs2 => (PResult.done none, fs2, [])) (Or.inl hin) hscan
        (fun fs2 _ => ⟨none, rfl⟩) with ⟨q, hq⟩
      exact ⟨q, hq⟩
    · exact ⟨none, rfl⟩
  · exact ⟨none, rfl⟩

/-- Claim C3 (amended): a write error during persistence is absorbed by
`download_file`'s catch-all handler and becomes an ordinary `failed`
outcome (the run moves on to the next candidate or the archive
fallback) — filesystem errors are not the one fatal class.  The uncaught
fatal paths of a resolution are exactly the two statements outside every
`try`: `os.makedirs` failing on a missing output directory at entry, and
`urljoin` raising `ValueError` on a scraped candidate (or base URL) with
an unbalanced bracket in authority position during page scanning; when
neither occurs, the run always finishes with an ordinary result. -/
theorem claim_C3 :
    (∀ (env : Env) (fs : List String) (url output_dir : String) (try_wayback : Bool),
      output_dir ∉ fs → env.mkdirFails output_dir = true →
      process_url env fs url output_dir try_wayback = (PResult.fatal, fs, [])) ∧
    (∀ (env : Env) (fs : List String) (url output_dir : String) (referer : Option String)
      (r : Response),
      env.fetch url referer = FetchResult.ok r →
      (containsSubstr (toLowerStr r.contentType) "text/html" && !(is_audio_url url)) = false →
      (400 ≤ r.status && r.status ≤ 599) = false →
      env.writeFails (chosenPath fs output_dir r) = true →
      download_file env fs url output_dir referer = (DlOutcome.failed, fs)) ∧
    (∀ (env : Env) (fs : List String) (url output_dir : String) (try_wayback : Bool)
      (r : Response),
      (output_dir ∈ fs ∨ env.mkdirFails output_dir = false) →
      env.fetch url none = FetchResult.ok r →
      (containsSubstr (toLowerStr r.contentType) "text/html" && !(is_audio_url url)) = true →
      r.body ≠ "" →
      extractRaises (env.parse r.body) r.body r.finalUrl = true →
      (process_url env fs url output_dir try_wayback).1 = PResult.scanError) ∧
    (∀ (env : Env) (fs : List String) (url output_dir : String) (try_wayback : Bool),
      (output_dir ∈ fs ∨ env.mkdirFails output_dir = false) →
      (∀ (u : String) (ref : Option String) (r2 : Response),
        env.fetch u ref = FetchResult.ok r2 →
        r2.body = "" ∨ extractRaises (env.parse r2.body) r2.body r2.finalUrl = false) →
      ∃ q, (process_url env fs url output_dir try_wayback).1 = PResult.done q) := by
  refine ⟨?_, ?_, ?_, ?_⟩
  · intro env fs url output_dir try_wayback hnot hfail
    unfold process_url process_url_go
    rw [if_neg hnot, if_pos hfail]
  · intro env fs url output_dir referer r hf h1 h2 h3
    unfold download_file
    rw [hf]
    simp only [h1, h2, Bool.false_eq_true, if_false]
    unfold chosenPath at h3
    simp [h3]
  · intro env fs url output_dir try_wayback r hm hf hhtml hbody hraise
    unfold process_url
    exact process_url_go_scanError env fs url output_dir _ r hm hf hhtml hbody hraise
  · intro env fs url output_dir try_wayback hm hscan
    unfold process_url
    refine process_url_go_done env fs url output_dir _ hm hscan ?_
    intro fs2 hin
    cases try_wayback with
    | true => exact waybackFallback_done env url output_dir fs2 hin hscan
    | false => exact ⟨none, rfl⟩

/-- Claim C3 counterexamples: (write error) with a direct 200 audio
response whose write fails, the run does not end fatally — the error is
absorbed and the archive fallback is still consulted; and (non-filesystem
crash) a page whose only candidate is `//[x.mp3` crashes the resolution
with `urljoin`'s `ValueError` although the directory is creatable and
every write would succeed. -/
theorem claim_C3_counterexample :
    process_url envWriteFail [] "http://orig/a" "downloads" true
      = (PResult.done none, ["downloads"],
         [Event.mkdir "downloads", Event.fetch "http://orig/a",
          Event.wayback "http://orig/a", Event.fetch "http://wb/a"]) ∧
    Event.wayback "http://orig/a"
      ∈ (process_url envWriteFail [] "http://orig/a" "downloads" true).2.2 ∧
    envBadCandidate.mkdirFails "downloads" = false ∧
    envBadCandidate.writeFails "downloads/x.mp3" = false ∧
    (process_url envBadCandidate [] "http://h/page" "downloads" true).1
      = PResult.scanError :=
  ⟨rfl, by decide, rfl, rfl, rfl⟩

/-- Witness for C3 (amended): a failing `os.makedirs` is fatal, a failing
write on an otherwise healthy download yields `failed`, the bad-candidate
page crashes with `scanError`, and a clean run finishes normally. -/
theorem claim_C3_witness :
    process_url envMkdirFail [] "http://h/clip.mp3" "downloads" true
      = (PResult.fatal, [], []) ∧
    download_file envWriteFail [] "http://orig/a" "downloads" none
      = (DlOutcome.failed, []) ∧
    (process_url envBadCandidate [] "http://h/page" "downloads" true).1
      = PResult.scanError ∧
    (∃ q, (process_url envClip [] "http://h/clip.mp3" "downloads" true).1
      = PResult.done q) :=
  ⟨claim_C3.1 envMkdirFail [] "http://h/clip.mp3" "downloads" true (by simp) rfl,
   claim_C3.2.1 envWriteFail [] "http://orig/a" "downloads" none respClip rfl rfl rfl rfl,
   claim_C3.2.2.1 envBadCandidate [] "http://h/page" "downloads" true
     { status := 200, contentType := "text/html", body := "<a href=\"//[x.mp3\">",
       finalUrl := "http://h/page", contentDisposition := none }
     (Or.inr rfl) rfl rfl (by decide) rfl,
   claim_C3.2.2.2 envClip [] "http://h/clip.mp3" "downloads" true (Or.inr rfl)
     (fun u ref r2 h => by
       injection h with h2
       exact Or.inl (by rw [← h2]; rfl))⟩

/-- Witness for C10: over an empty filesystem the directory is created
first and survives the run. -/
theorem claim_C10_witness :
    "downloads" ∈ (process_url envClip [] "http://h/clip.mp3" "downloads" true).2.1 ∧
    (process_url envClip [] "http://h/clip.mp3" "downloads" true).2.2.head?
      = some (Event.mkdir "downloads") := by
  have h := claim_C10 envClip [] "http://h/clip.mp3" "downloads" true (Or.inr rfl)
  exact ⟨h.1, h.2 (by simp)⟩
